import Mathlib

/-!
Shallow embedding of the tensor-operator shape/type-inference functions of
`onnx/defs/tensor/defs.cc` (the `TypeAndShapeInferenceFunction` lambdas of
Cast, Reshape, Concat, Slice, Scatter, Gather, Squeeze, Pad, Tile, Unique).

Modelling conventions:
* a protobuf `Dimension` is `Dimension.value v` when `has_dim_value`,
  `Dimension.param s` when `has_dim_param`, and `Dimension.unknown` when
  neither field is set (an `add_dim()` that is never assigned);
* a tensor type's optional shape is `Option (List Dimension)`, `none`
  meaning `has_shape()` is false (the type slot was never given a shape);
* an inference context input that may be a compile-time initializer is an
  `Option (List Int)`: `none` when `getInputData` returns null;
* `int64` arithmetic is modelled with unbounded `Int` (no operand in the
  claims approaches the overflow range), and the `double` round-trip in
  Slice's `ceil` is modelled by exact integer ceiling division;
* `fail_shape_inference` / `fail_type_inference` are `Except.error` with
  the message of the source.
-/

inductive Dimension where
  | value : Int → Dimension
  | param : String → Dimension
  | unknown : Dimension
deriving DecidableEq, Repr

/-- Output type slot after one inference call: the element type that was set
(`TensorProto` `DataType` code) and the optional shape (`none` when
`mutable_shape()` was never touched). -/
structure TensorTypeInfo where
  elem : Nat
  shape : Option (List Dimension)
deriving DecidableEq, Repr

/-- `TensorProto::INT64` enum code, used by Unique's auxiliary outputs. -/
def int64Code : Nat := 7

/-- Exact integer ceiling of `a / b` (`b ≠ 0`), modelling
`ceil(1.0 * a / b)` of the source exactly (the `double` computation is
exact for all magnitudes the claims use). -/
def ceilRat (a b : Int) : Int := -((-a).fdiv b)

/-- `clamp` lambda of the Slice inference function. -/
def clampInt (val low high : Int) : Int :=
  if val < low then low else if val > high then high else val

/-! ### Cast (opset 9), lines 82–87 -/

/-- Cast: `propagateElemTypeFromAttributeToOutput(ctx, "to", 0)`, then
propagate the input shape when present. -/
def castInfer (toAttr : Nat) (inputShape : Option (List Dimension)) :
    Except String TensorTypeInfo :=
  Except.ok ⟨toAttr, inputShape⟩

/-! ### Scatter (opset 9), lines 811–816 -/

/-- Scatter: propagate element type from input 0, and shape from input 0
when it has one.  The `indices` (input 1) and `updates` (input 2) type
slots are taken but never read. -/
def scatterInfer (dataElem : Nat) (dataShape : Option (List Dimension))
    (_indicesTy _updatesTy : Option TensorTypeInfo) :
    Except String TensorTypeInfo :=
  Except.ok ⟨dataElem, dataShape⟩

/-! ### Squeeze (opset 1), lines 948–984 -/

/-- Inner loop of Squeeze's inference: walk the input dimensions with the
running index `i` and the not-yet-consumed suffix of `axes` (the source's
`j` cursor); a head axis equal to `i` squeezes the dimension (failing when
its known value is not 1), any other dimension is appended to the output. -/
def squeezeLoop : List Dimension → Nat → List Int → Except String (List Dimension)
  | [], _, _ => Except.ok []
  | d :: rest, i, [] => (squeezeLoop rest (i + 1) []).map (d :: ·)
  | d :: rest, i, a :: axs =>
    if a = (i : Int) then
      match d with
      | Dimension.value v =>
        if v ≠ 1 then
          Except.error ("Dimension of input " ++ toString i ++
            " must be 1 instead of " ++ toString v)
        else squeezeLoop rest (i + 1) axs
      | _ => squeezeLoop rest (i + 1) axs
    else (squeezeLoop rest (i + 1) (a :: axs)).map (d :: ·)

/-- Squeeze: element type always propagated; without an input shape or
without an `axes` attribute the call returns with no output shape. -/
def squeezeInfer (dataElem : Nat) (dataShape : Option (List Dimension))
    (axesAttr : Option (List Int)) : Except String TensorTypeInfo :=
  match dataShape with
  | none => Except.ok ⟨dataElem, none⟩
  | some dims =>
    match axesAttr with
    | none => Except.ok ⟨dataElem, none⟩
    | some axes =>
      match squeezeLoop dims 0 axes with
      | Except.error e => Except.error e
      | Except.ok out => Except.ok ⟨dataElem, some out⟩

/-! ### Pad (opset 2), lines 1108–1147 -/

/-- Per-axis output dimensions of Pad, assuming `pads.length = 2 * rank`:
a known input length becomes `value + pads[i] + pads[rank+i]`; otherwise
the input dimension is copied verbatim when `pads[i] + pads[rank+i] = 0`
and the output dimension is left unset otherwise. -/
def padOutputDims (dims : List Dimension) (pads : List Int) : List Dimension :=
  (List.range dims.length).map fun i =>
    match dims.getD i Dimension.unknown with
    | Dimension.value v =>
        Dimension.value (v + pads.getD i 0 + pads.getD (dims.length + i) 0)
    | d =>
        if pads.getD i 0 + pads.getD (dims.length + i) 0 = 0 then d
        else Dimension.unknown

/-- Pad: element type propagated; missing input shape skips shape
propagation; a missing `pads` attribute or one of length other than
`2 * rank` fails. -/
def padInfer (dataElem : Nat) (dataShape : Option (List Dimension))
    (padsAttr : Option (List Int)) : Except String TensorTypeInfo :=
  match dataShape with
  | none => Except.ok ⟨dataElem, none⟩
  | some dims =>
    match padsAttr with
    | none => Except.error "Attribute value for pads is required"
    | some pads =>
      if pads.length ≠ 2 * dims.length then
        Except.error "Attribute pads has incorrect length"
      else Except.ok ⟨dataElem, some (padOutputDims dims pads)⟩

/-! ### Unique (opset 11), lines 1952–2002 -/

/-- Output `Y`'s shape for Unique: without an `axis` attribute a single
fresh unset dimension; with one, every input dimension is copied except
index `axis`, which is added but never assigned.  The loop runs over
`shape().dim_size()`, which is 0 when the input has no shape; in the
axis branch `mutable_shape()` is only touched inside that loop, so with
zero input dimensions `Y`'s shape is never materialized (`none`). -/
def uniqueYShape (xShape : Option (List Dimension)) (axisAttr : Option Int) :
    Option (List Dimension) :=
  match axisAttr with
  | none => some [Dimension.unknown]
  | some axis =>
    let dims := xShape.getD []
    if dims.length = 0 then none
    else some ((List.range dims.length).map fun i =>
      if Int.ofNat i = axis then Dimension.unknown
      else dims.getD i Dimension.unknown)

/-- Auxiliary 1-D int64 output of Unique (`indices`, `inverse_indices`,
`counts`): materialized exactly when the node has at least `k` outputs. -/
def uniqueAuxOutput (numOutputs k : Nat) : Option TensorTypeInfo :=
  if k ≤ numOutputs then some ⟨int64Code, some [Dimension.unknown]⟩ else none

/-- Unique: the four output slots (`Y`, `indices`, `inverse_indices`,
`counts`); the three optional slots are `none` when not requested. -/
def uniqueInfer (xElem : Nat) (xShape : Option (List Dimension))
    (axisAttr : Option Int) (numOutputs : Nat) :
    TensorTypeInfo × Option TensorTypeInfo × Option TensorTypeInfo ×
      Option TensorTypeInfo :=
  (⟨xElem, uniqueYShape xShape axisAttr⟩,
   uniqueAuxOutput numOutputs 2,
   uniqueAuxOutput numOutputs 3,
   uniqueAuxOutput numOutputs 4)

/-! ### Reshape (opset 5), lines 109–226 -/

/-- One iteration of Reshape's loop over the target-shape entries (the
body of the `for` over `targetShape`): for entry `t` at index `i`, given
the `-1` index seen so far and the running `outputProduct`, produce the
new output dimension, its `unresolvedZeros` flag, and the updated `-1`
index and product. -/
def reshapeStep (dataShape : Option (List Dimension)) (t : Int) (i : Nat)
    (negOne : Option Nat) (prod : Int) :
    Except String (Dimension × Bool × Option Nat × Int) :=
  if t = -1 then
    match negOne with
    | some _ => Except.error "Target shape may not have multiple -1 dimensions"
    | none => Except.ok (Dimension.unknown, false, some i, prod)
  else if t = 0 then
    match dataShape with
    | none => Except.ok (Dimension.unknown, true, negOne, prod)
    | some dims =>
      if i < dims.length then
        match dims.getD i Dimension.unknown with
        | Dimension.value v =>
          Except.ok (Dimension.value v, false, negOne, prod * v)
        | Dimension.param s => Except.ok (Dimension.param s, true, negOne, prod)
        | Dimension.unknown =>
          Except.ok (Dimension.unknown, true, negOne, prod)
      else Except.error "Invalid position of 0"
  else if t > 0 then Except.ok (Dimension.value t, false, negOne, prod * t)
  else Except.error ("Invalid dimension value: " ++ toString t)

/-- Main loop of Reshape's inference over the target-shape entries, with
the running entry index: returns the output dimensions built so far, the
`unresolvedZeros` flags, the index of the (unique) `-1` entry and the
running `outputProduct`. -/
def reshapeLoop (dataShape : Option (List Dimension)) :
    List Int → Nat → Option Nat → Int →
    Except String (List Dimension × List Bool × Option Nat × Int)
  | [], _, negOne, prod => Except.ok ([], [], negOne, prod)
  | t :: rest, i, negOne, prod =>
    match reshapeStep dataShape t i negOne prod with
    | Except.error e => Except.error e
    | Except.ok (d, flag, n1, p1) =>
      (reshapeLoop dataShape rest (i + 1) n1 p1).map
        fun r => (d :: r.1, flag :: r.2.1, r.2.2)

/-- Product of the data-input dimension values, skipping exactly the
positions flagged in `unresolvedZeros`; `none` models
`inputProductValid = false` (an unknown dimension not flagged, or flagged
positions exhausted). -/
def reshapeInputProduct : List Dimension → List Bool → Option Int
  | [], _ => some 1
  | d :: rest, uz =>
    match d with
    | Dimension.value v => (reshapeInputProduct rest uz.tail).map (v * ·)
    | _ =>
      match uz with
      | true :: uzrest => reshapeInputProduct rest uzrest
      | _ => none

/-- Reshape: element type always propagated; a non-constant target shape
(input 1 not an initializer) skips shape propagation; otherwise the output
shape is built entry by entry and a `-1` entry is resolved to
`inputProduct / outputProduct` when every contributing input dimension is
known. -/
def reshapeInfer (dataElem : Nat) (dataShape : Option (List Dimension))
    (targetShapeData : Option (List Int)) : Except String TensorTypeInfo :=
  match targetShapeData with
  | none => Except.ok ⟨dataElem, none⟩
  | some targetShape =>
    match reshapeLoop dataShape targetShape 0 none 1 with
    | Except.error e => Except.error e
    | Except.ok (outDims, uz, negOne, outProd) =>
      match negOne with
      | none => Except.ok ⟨dataElem, some outDims⟩
      | some idx =>
        if outProd = 0 then Except.error "Invalid Target shape product of 0"
        else
          match dataShape with
          | none => Except.ok ⟨dataElem, some outDims⟩
          | some dims =>
            match reshapeInputProduct dims uz with
            | none => Except.ok ⟨dataElem, some outDims⟩
            | some inProd =>
              if inProd % outProd ≠ 0 then
                Except.error
                  "Dimension could not be inferred: incompatible shapes"
              else
                Except.ok ⟨dataElem,
                  some (outDims.set idx (Dimension.value (inProd / outProd)))⟩

/-! ### Gather (opset 1), lines 888–923 -/

/-- Output dimensions of Gather for a normalized axis: `q + r - 1` entries,
those before `axis` from `data`, the next `q` from `indices`, the rest
from `data` shifted past the gathered axis. -/
def gatherOutputDims (dataDims indicesDims : List Dimension) (axis : Nat) :
    List Dimension :=
  (List.range (indicesDims.length + dataDims.length - 1)).map fun i =>
    if i < axis then dataDims.getD i Dimension.unknown
    else if i < axis + indicesDims.length then
      indicesDims.getD (i - axis) Dimension.unknown
    else dataDims.getD (i + 1 - indicesDims.length) Dimension.unknown

/-- Gather: element type propagated; needs both input shapes; `data` rank
must be at least 1 and the axis attribute in `[-r, r-1]` (negative values
normalized by adding `r`). -/
def gatherInfer (dataElem : Nat) (dataShape indicesShape : Option (List Dimension))
    (axisAttr : Int) : Except String TensorTypeInfo :=
  match dataShape, indicesShape with
  | some dataDims, some indicesDims =>
    if dataDims.length < 1 then Except.error "data tensor must have rank >= 1"
    else if axisAttr < -(dataDims.length : Int) ∨
        axisAttr ≥ (dataDims.length : Int) then
      Except.error "axis must be in [-r, r-1]"
    else
      let axis :=
        (if axisAttr < 0 then axisAttr + dataDims.length else axisAttr).toNat
      Except.ok ⟨dataElem, some (gatherOutputDims dataDims indicesDims axis)⟩
  | _, _ => Except.ok ⟨dataElem, none⟩

/-! ### Tile (opset 6), lines 1314–1366 -/

/-- Tile: element type propagated; needs the input shape; with a constant
`repeats` (modelled as the parsed int64 list) its carrying input must be
1-D and have as many values as the input rank, and each known input length
is multiplied by its repeat; without a constant `repeats` only the output
rank is fixed. -/
def tileInfer (dataElem : Nat) (dataShape : Option (List Dimension))
    (repeatsShape : Option (List Dimension)) (repeatsData : Option (List Int)) :
    Except String TensorTypeInfo :=
  match dataShape with
  | none => Except.ok ⟨dataElem, none⟩
  | some dims =>
    match repeatsData with
    | some repeats =>
      if (repeatsShape.getD []).length ≠ 1 then
        Except.error "'Repeats' input must be 1D tensor of type int64"
      else if repeats.length ≠ dims.length then
        Except.error
          "'Repeats' input has incorrect number of values. The number of values in 'repeats' must be equal to the number of input dimensions."
      else
        Except.ok ⟨dataElem, some ((List.range dims.length).map fun i =>
          match dims.getD i Dimension.unknown with
          | Dimension.value v => Dimension.value (v * repeats.getD i 0)
          | _ => Dimension.unknown)⟩
    | none =>
      Except.ok ⟨dataElem, some (List.replicate dims.length Dimension.unknown)⟩

/-! ### Concat (opset 4), lines 307–361 -/

/-- Modelled from the spec: `mergeInDimensionInfo` is declared in
`onnx/defs/shape_inference.h`, which is not among the sources; §4.1 and §3
give its rule: an unset slot copies the input in; equal known values are
kept and unequal ones fail; a value beats a symbolic parameter; unequal
parameters widen to unknown without failing; known information in the slot
is never discarded for an unknown input. -/
def mergeDimension (input slot : Dimension) : Except String Dimension :=
  match slot, input with
  | Dimension.unknown, d => Except.ok d
  | s, Dimension.unknown => Except.ok s
  | Dimension.value v, Dimension.value w =>
    if w = v then Except.ok (Dimension.value v)
    else Except.error "ShapeMismatch: conflicting dimension values"
  | Dimension.value v, Dimension.param _ => Except.ok (Dimension.value v)
  | Dimension.param _, Dimension.value w => Except.ok (Dimension.value w)
  | Dimension.param p, Dimension.param q =>
    if q = p then Except.ok (Dimension.param p) else Except.ok Dimension.unknown

/-- The contribution of one input's concat-axis dimension to
`total_length`: its value when known, `none` otherwise. -/
def dimContrib (d : Dimension) : Option Int :=
  match d with
  | Dimension.value v => some v
  | _ => none

/-- One input of Concat: walk its dimensions and the current output
dimensions in parallel (index `j`); at the concat axis report the known
length (if any) and leave the output slot untouched, elsewhere merge the
input dimension into the output slot. -/
def concatRow (axis : Nat) : Nat → List Dimension → List Dimension →
    Except String (List Dimension × Option Int)
  | j, din :: srest, dout :: orest =>
    if j = axis then
      (concatRow axis (j + 1) srest orest).map fun r =>
        (dout :: r.1, dimContrib din)
    else
      match mergeDimension din dout with
      | Except.error e => Except.error e
      | Except.ok m =>
        (concatRow axis (j + 1) srest orest).map fun r => (m :: r.1, r.2)
  | _, _, out => Except.ok (out, none)

/-- Fold of `concatRow` over all inputs, carrying the output dimensions,
the `all_lengths_known` flag and the running `total_length`; an input of a
different rank fails. -/
def concatFold (axis rank : Nat) :
    List (List Dimension) → List Dimension → Bool → Int →
    Except String (List Dimension × Bool × Int)
  | [], out, known, total => Except.ok (out, known, total)
  | s :: rest, out, known, total =>
    if s.length ≠ rank then
      Except.error "All inputs to Concat must have same rank"
    else
      match concatRow axis 0 s out with
      | Except.error e => Except.error e
      | Except.ok (out2, contrib) =>
        match contrib with
        | some v => concatFold axis rank rest out2 known (total + v)
        | none => concatFold axis rank rest out2 false total

/-- Concat: element type propagated from input 0; needs at least one input
and a shape on every input; the `axis` attribute is required and must be
less than the rank of input 0; a negative axis returns with no output
shape; otherwise the per-axis fold runs and the concat-axis length is set
to the total exactly when every input's length there was known. -/
def concatInfer (dataElem : Nat) (inputs : List (Option (List Dimension)))
    (axisAttr : Option Int) : Except String TensorTypeInfo :=
  match inputs with
  | [] => Except.ok ⟨dataElem, none⟩
  | first :: _ =>
    if inputs.any (·.isNone) then Except.ok ⟨dataElem, none⟩
    else
      let rank := (first.getD []).length
      match axisAttr with
      | none => Except.error "Required attribute axis is missing"
      | some axis =>
        if (rank : Int) ≤ axis then
          Except.error "rank must be greater than axis"
        else if axis < 0 then Except.ok ⟨dataElem, none⟩
        else
          match concatFold axis.toNat rank (inputs.map (·.getD []))
              (List.replicate rank Dimension.unknown) true 0 with
          | Except.error e => Except.error e
          | Except.ok (out, known, total) =>
            Except.ok ⟨dataElem,
              some (if known then out.set axis.toNat (Dimension.value total)
                    else out)⟩

/-! ### Slice (opset 10), lines 519–679 -/

/-- Axis normalization of Slice (and Gather): a negative axis has the
input rank added. -/
def normAxis (rank : Nat) (a : Int) : Int := if a < 0 then a + rank else a

/-- Slice's processed `start` for an axis of known length `len`: a
negative value has the length added, then the result is clamped to
`[0, len-1]` for a negative step and to `[0, len]` otherwise. -/
def sliceClampedStart (s len st : Int) : Int :=
  let s0 := if s < 0 then s + len else s
  if st < 0 then clampInt s0 0 (len - 1) else clampInt s0 0 len

/-- Slice's processed `end` for an axis of known length `len`: a negative
value has the length added, then the result is clamped to `[-1, len]` for
a negative step and to `[0, len]` otherwise. -/
def sliceClampedEnd (e len st : Int) : Int :=
  let e0 := if e < 0 then e + len else e
  if st < 0 then clampInt e0 (-1) len else clampInt e0 0 len

/-- The inferred output length of a sliced axis of known length `len`:
`max(0, ceil((end - start) / step))` after normalization and clamping. -/
def sliceOutLen (s e st len : Int) : Int :=
  max (ceilRat (sliceClampedEnd e len st - sliceClampedStart s len st) st) 0

/-- One iteration of Slice's per-axis loop: normalize the axis (adding
the rank when negative), reject out-of-range and duplicate axes, skip an
axis whose input length is unknown, and otherwise set the output length
to `sliceOutLen` (step 0 fails); returns the updated duplicate set and
output dimensions. -/
def sliceStep (dims : List Dimension) (a s e st : Int) (seen : List Int)
    (out : List Dimension) : Except String (List Int × List Dimension) :=
  let axis := normAxis dims.length a
  if axis ≥ (dims.length : Int) ∨ axis < 0 then
    Except.error "Input axes has invalid data"
  else if axis ∈ seen then Except.error "'axes' has duplicates"
  else
    match dims.getD axis.toNat Dimension.unknown with
    | Dimension.value len =>
      if st = 0 then Except.error "'step' cannot be 0"
      else Except.ok (axis :: seen,
        out.set axis.toNat (Dimension.value (sliceOutLen s e st len)))
    | _ => Except.ok (axis :: seen, out)

/-- Per-axis loop of Slice: `sliceStep` on each (axis, start, end, step)
quadruple, threading the seen-axes set and the output dimensions. -/
def sliceAxesLoop (dims : List Dimension) :
    List Int → List Int → List Int → List Int → List Int → List Dimension →
    Except String (List Dimension)
  | a :: arest, s :: srest, e :: erest, st :: strest, seen, out =>
    match sliceStep dims a s e st seen out with
    | Except.error err => Except.error err
    | Except.ok (seen2, out2) =>
      sliceAxesLoop dims arest srest erest strest seen2 out2
  | _, _, _, _, _, out => Except.ok out

/-- Common tail of Slice once starts/ends/axes are fixed: check steps
length (trivially satisfied when steps were defaulted to all-1), copy the
input dimensions as the initial output shape (fixing the output rank), and
run the per-axis loop.  The copy loop touches `mutable_shape()` only via
`add_dim()`, so with a rank-0 input the output shape is never
materialized (`none`). -/
def sliceBody (dataElem : Nat) (dims : List Dimension)
    (starts ends axes steps : List Int) : Except String TensorTypeInfo :=
  if steps.length ≠ axes.length then
    Except.error "Input steps has incorrect length"
  else
    match sliceAxesLoop dims axes starts ends steps [] dims with
    | Except.error e => Except.error e
    | Except.ok out =>
      Except.ok ⟨dataElem, if dims.length = 0 then none else some out⟩

/-- Slice: the node must have 3–5 inputs; element type propagated; needs
the data shape and constant `starts`/`ends`; an `axes` or `steps` input
that is present (with a shape) but not constant skips shape propagation
(`some none`), while an absent one (`none`) takes its default
(`0..n-1`, all ones).  (The int32/int64 encoding check of
`get_initializer_data` is not modelled: the constant data arrives already
parsed as integers.) -/
def sliceInfer (dataElem : Nat) (numInputs : Nat)
    (dataShape : Option (List Dimension))
    (startsData endsData : Option (List Int))
    (axesInput stepsInput : Option (Option (List Int))) :
    Except String TensorTypeInfo :=
  if numInputs ≠ 3 ∧ numInputs ≠ 4 ∧ numInputs ≠ 5 then
    Except.error "Slice op must have either three, four or five inputs."
  else
    match dataShape with
    | none => Except.ok ⟨dataElem, none⟩
    | some dims =>
      match startsData, endsData with
      | some starts, some ends =>
        if axesInput = some none ∨ stepsInput = some none then
          Except.ok ⟨dataElem, none⟩
        else if starts.length ≠ ends.length then
          Except.error "Incorrect or missing input value for starts and ends"
        else
          match axesInput.join with
          | none =>
            sliceBody dataElem dims starts ends
              ((List.range starts.length).map Int.ofNat)
              ((stepsInput.join).getD (List.replicate starts.length 1))
          | some axes =>
            if axes.length ≠ starts.length then
              Except.error "Input axes has incorrect length"
            else
              sliceBody dataElem dims starts ends axes
                ((stepsInput.join).getD (List.replicate starts.length 1))
      | _, _ => Except.ok ⟨dataElem, none⟩

/-! ### Helper lemmas -/

theorem getD_map_range {α : Type} (n i : Nat) (f : Nat → α) (d : α) (h : i < n) :
    ((List.range n).map f).getD i d = f i := by
  simp [List.getD_eq_getElem?_getD, List.getElem?_map, List.getElem?_range, h]

theorem getD_set_ne {α : Type} {l : List α} {i j : Nat} (h : i ≠ j)
    (a d : α) : (l.set i a).getD j d = l.getD j d := by
  simp [List.getD_eq_getElem?_getD, List.getElem?_set_ne h]

/-! ### Claim theorems -/

/-- C2: Scatter's inferred output type and shape always equal those of
input 0, unconditionally and without ever failing, and the indices and
updates type slots are never read (inference is invariant under changing
them). -/
theorem scatter_output_is_input0 (dataElem : Nat)
    (dataShape : Option (List Dimension))
    (indicesTy updatesTy indicesTy' updatesTy' : Option TensorTypeInfo) :
    scatterInfer dataElem dataShape indicesTy updatesTy =
      Except.ok ⟨dataElem, dataShape⟩ ∧
    scatterInfer dataElem dataShape indicesTy updatesTy =
      scatterInfer dataElem dataShape indicesTy' updatesTy' :=
  ⟨rfl, rfl⟩

/-- C10: when the `axes` attribute is absent, Squeeze's inference returns
successfully having set only the output element type — no output shape is
computed, for every input shape (including fully known ones containing
dimensions of size 1). -/
theorem squeeze_no_axes_sets_type_only (dataElem : Nat)
    (dataShape : Option (List Dimension)) :
    squeezeInfer dataElem dataShape none = Except.ok ⟨dataElem, none⟩ := by
  cases dataShape <;> rfl

/-- C9: across the modelled inference functions, insufficient information
(an unknown input shape, or a non-constant value-dependent input such as
Reshape's target shape, Tile's repeats, or Slice's starts/ends/axes/steps)
never causes a failure: the call succeeds with the output shape partially
(Tile fixes only the rank) or fully unresolved, and the output element
type is still propagated. -/
theorem insufficient_information_never_fails (t toAttr : Nat)
    (ds : Option (List Dimension)) (dims : List Dimension)
    (rs is2 : Option (List Dimension)) (rd : Option (List Int))
    (sd ed : Option (List Int)) (ai si : Option (Option (List Int)))
    (pads axes : Option (List Int)) (a : Option Int) (ax : Int)
    (ity uty : Option TensorTypeInfo)
    (rest : List (Option (List Dimension))) :
    reshapeInfer t ds none = Except.ok ⟨t, none⟩ ∧
    tileInfer t (some dims) rs none =
      Except.ok ⟨t, some (List.replicate dims.length Dimension.unknown)⟩ ∧
    tileInfer t none rs rd = Except.ok ⟨t, none⟩ ∧
    castInfer toAttr ds = Except.ok ⟨toAttr, ds⟩ ∧
    sliceInfer t 5 none sd ed ai si = Except.ok ⟨t, none⟩ ∧
    sliceInfer t 5 (some dims) none ed ai si = Except.ok ⟨t, none⟩ ∧
    sliceInfer t 5 (some dims) sd ed (some none) si = Except.ok ⟨t, none⟩ ∧
    padInfer t none pads = Except.ok ⟨t, none⟩ ∧
    squeezeInfer t none axes = Except.ok ⟨t, none⟩ ∧
    gatherInfer t none is2 ax = Except.ok ⟨t, none⟩ ∧
    gatherInfer t (some dims) none ax = Except.ok ⟨t, none⟩ ∧
    concatInfer t (none :: rest) a = Except.ok ⟨t, none⟩ ∧
    concatInfer t (some dims :: none :: rest) a = Except.ok ⟨t, none⟩ ∧
    scatterInfer t none ity uty = Except.ok ⟨t, none⟩ := by
  refine ⟨rfl, rfl, rfl, rfl, rfl, ?_, ?_, rfl, rfl, rfl, ?_, ?_, ?_, rfl⟩
  · cases ed <;> rfl
  · cases sd <;> cases ed <;> rfl
  · cases is2 <;> rfl
  · simp [concatInfer]
  · simp [concatInfer]

/-- C3: Unique's inference: with no `axis` attribute, output `Y` is 1-D of
unknown length; with an `axis` attribute and a nonempty input shape, every
axis of the input other than the selected one is copied verbatim into `Y`
and the selected axis (when in range) becomes an unknown length, while
with zero input dimensions `Y` is left with no shape (the loop never
materializes it); the optional `indices`, `inverse_indices` and `counts`
outputs are 1-D unknown-length int64 shapes exactly when the node requests
them. -/
theorem unique_shape_inference (t : Nat) (dims : List Dimension)
    (axisAttr : Option Int) (numOutputs : Nat) :
    (uniqueInfer t (some dims) none numOutputs).1 =
      ⟨t, some [Dimension.unknown]⟩ ∧
    (∀ axis : Int, dims ≠ [] → ∃ out,
      (uniqueInfer t (some dims) (some axis) numOutputs).1 = ⟨t, some out⟩ ∧
      out.length = dims.length ∧
      (∀ i, i < dims.length → Int.ofNat i ≠ axis →
        out.getD i Dimension.unknown = dims.getD i Dimension.unknown) ∧
      (0 ≤ axis → axis < (dims.length : Int) →
        out.getD axis.toNat Dimension.unknown = Dimension.unknown)) ∧
    (∀ axis : Int, dims = [] →
      (uniqueInfer t (some dims) (some axis) numOutputs).1 = ⟨t, none⟩) ∧
    ((uniqueInfer t (some dims) axisAttr numOutputs).2.1 =
      if 2 ≤ numOutputs then some ⟨int64Code, some [Dimension.unknown]⟩
      else none) ∧
    ((uniqueInfer t (some dims) axisAttr numOutputs).2.2.1 =
      if 3 ≤ numOutputs then some ⟨int64Code, some [Dimension.unknown]⟩
      else none) ∧
    ((uniqueInfer t (some dims) axisAttr numOutputs).2.2.2 =
      if 4 ≤ numOutputs then some ⟨int64Code, some [Dimension.unknown]⟩
      else none) := by
  refine ⟨rfl, ?_, ?_, rfl, rfl, rfl⟩
  · intro axis hne0
    have hlen : ¬ dims.length = 0 := by
      cases dims with
      | nil => exact absurd rfl hne0
      | cons d ds => simp
    have hY : uniqueYShape (some dims) (some axis) =
        some ((List.range dims.length).map fun i =>
          if Int.ofNat i = axis then Dimension.unknown
          else dims.getD i Dimension.unknown) := by
      unfold uniqueYShape
      simp only [Option.getD_some]
      rw [if_neg hlen]
    refine ⟨(List.range dims.length).map fun i =>
        if Int.ofNat i = axis then Dimension.unknown
        else dims.getD i Dimension.unknown, ?_, ?_, ?_, ?_⟩
    · show (⟨t, uniqueYShape (some dims) (some axis)⟩ : TensorTypeInfo) = _
      rw [hY]
    · simp
    · intro i hi hne
      rw [getD_map_range _ _ _ _ hi, if_neg hne]
    · intro h0 hlt
      have hlt' : axis.toNat < dims.length := by omega
      rw [getD_map_range _ _ _ _ hlt',
        if_pos (show Int.ofNat axis.toNat = axis from Int.toNat_of_nonneg h0)]
  · intro axis h0
    show (⟨t, uniqueYShape (some dims) (some axis)⟩ : TensorTypeInfo) = _
    unfold uniqueYShape
    simp only [Option.getD_some]
    rw [if_pos (by simp [h0])]

/-- C1 counterexample: the claim says an unknown input length is passed
through unresolved ONLY if both the begin and end pads for that axis are
exactly zero, and that otherwise the output dimension is left unset.  For
input shape `[param "N"]` and `pads = [1, -1]` (begin pad 1, end pad -1,
neither zero), the code nevertheless passes the symbolic dimension
through, because it tests `pads[i] + pads[rank + i] == 0`, i.e. the SUM of
the two pads. -/
theorem pad_both_zero_counterexample :
    padInfer 1 (some [Dimension.param "N"]) (some [1, -1]) =
      Except.ok ⟨1, some [Dimension.param "N"]⟩ ∧
    (1 : Int) ≠ 0 ∧ Dimension.param "N" ≠ Dimension.unknown := by
  refine ⟨rfl, by decide, by decide⟩

/-- C1 (amended): for Pad with a pads attribute of length exactly 2×rank,
every output dimension whose input length is known equals
input length + begin pad + end pad; when the input length at an axis is
unknown, the input dimension is passed through unresolved exactly when the
begin and end pads for that axis SUM to zero, and otherwise that output
dimension is left unset. -/
theorem pad_shape_inference (t : Nat) (dims : List Dimension)
    (pads : List Int) (h : pads.length = 2 * dims.length) :
    ∃ out, padInfer t (some dims) (some pads) = Except.ok ⟨t, some out⟩ ∧
      out.length = dims.length ∧
      ∀ i, i < dims.length →
        (∀ v, dims.getD i Dimension.unknown = Dimension.value v →
          out.getD i Dimension.unknown =
            Dimension.value (v + pads.getD i 0 + pads.getD (dims.length + i) 0)) ∧
        (∀ s, dims.getD i Dimension.unknown = Dimension.param s →
          out.getD i Dimension.unknown =
            (if pads.getD i 0 + pads.getD (dims.length + i) 0 = 0
             then Dimension.param s else Dimension.unknown)) ∧
        (dims.getD i Dimension.unknown = Dimension.unknown →
          out.getD i Dimension.unknown = Dimension.unknown) := by
  refine ⟨padOutputDims dims pads, ?_, ?_, ?_⟩
  · rw [padInfer, if_neg (by omega)]
  · simp [padOutputDims]
  · intro i hi
    refine ⟨?_, ?_, ?_⟩
    · intro v hv
      rw [padOutputDims, getD_map_range _ _ _ _ hi, hv]
    · intro s hs
      rw [padOutputDims, getD_map_range _ _ _ _ hi, hs]
    · intro hu
      rw [padOutputDims, getD_map_range _ _ _ _ hi, hu]
      show (if pads.getD i 0 + pads.getD (dims.length + i) 0 = 0
            then Dimension.unknown else Dimension.unknown) = Dimension.unknown
      split <;> rfl

/-- Witness for `pad_shape_inference` at input shape `(2, "N")` and
`pads = [3, 4, 5, 0]`. -/
theorem pad_shape_inference_witness :
    ([3, 4, 5, 0] : List Int).length =
      2 * ([Dimension.value 2, Dimension.param "N"] : List Dimension).length ∧
    ∃ out, padInfer 1 (some [Dimension.value 2, Dimension.param "N"])
        (some [3, 4, 5, 0]) = Except.ok ⟨1, some out⟩ ∧
      out.length = 2 ∧
      ∀ i, i < 2 →
        (∀ v, ([Dimension.value 2, Dimension.param "N"]).getD i Dimension.unknown
            = Dimension.value v →
          out.getD i Dimension.unknown =
            Dimension.value (v + ([3, 4, 5, 0] : List Int).getD i 0 +
              ([3, 4, 5, 0] : List Int).getD (2 + i) 0)) ∧
        (∀ s, ([Dimension.value 2, Dimension.param "N"]).getD i Dimension.unknown
            = Dimension.param s →
          out.getD i Dimension.unknown =
            (if ([3, 4, 5, 0] : List Int).getD i 0 +
                ([3, 4, 5, 0] : List Int).getD (2 + i) 0 = 0
             then Dimension.param s else Dimension.unknown)) ∧
        (([Dimension.value 2, Dimension.param "N"]).getD i Dimension.unknown
            = Dimension.unknown →
          out.getD i Dimension.unknown = Dimension.unknown) :=
  ⟨by decide,
   pad_shape_inference 1 [Dimension.value 2, Dimension.param "N"] [3, 4, 5, 0]
     (by decide)⟩

/-- C7: Gather's inference, for every data shape of rank `r ≥ 1`, every
indices shape of rank `q`, and every axis attribute in `[-r, r-1]`
(negatives normalized by adding `r`): the output has rank `q + r - 1`,
with dims before the normalized axis copied from data, dims in
`[axis, axis + q)` copied from indices, and the remaining dims copied from
data after the gathered axis. -/
theorem gather_shape_inference (t : Nat)
    (dataDims indicesDims : List Dimension) (axisAttr : Int)
    (hr : 1 ≤ dataDims.length)
    (hlo : -(dataDims.length : Int) ≤ axisAttr)
    (hhi : axisAttr ≤ (dataDims.length : Int) - 1) :
    ∃ out, gatherInfer t (some dataDims) (some indicesDims) axisAttr =
        Except.ok ⟨t, some out⟩ ∧
      out.length = indicesDims.length + dataDims.length - 1 ∧
      (∀ i, i < (if axisAttr < 0 then axisAttr + dataDims.length
                 else axisAttr).toNat →
        out.getD i Dimension.unknown = dataDims.getD i Dimension.unknown) ∧
      (∀ i, (if axisAttr < 0 then axisAttr + dataDims.length
             else axisAttr).toNat ≤ i →
        i < (if axisAttr < 0 then axisAttr + dataDims.length
             else axisAttr).toNat + indicesDims.length →
        out.getD i Dimension.unknown =
          indicesDims.getD
            (i - (if axisAttr < 0 then axisAttr + dataDims.length
                  else axisAttr).toNat) Dimension.unknown) ∧
      (∀ i, (if axisAttr < 0 then axisAttr + dataDims.length
             else axisAttr).toNat + indicesDims.length ≤ i →
        i < indicesDims.length + dataDims.length - 1 →
        out.getD i Dimension.unknown =
          dataDims.getD (i + 1 - indicesDims.length) Dimension.unknown) := by
  have hne : ¬ (dataDims.length < 1) := by omega
  have hrange : ¬ (axisAttr < -(dataDims.length : Int) ∨
      axisAttr ≥ (dataDims.length : Int)) := by omega
  refine ⟨gatherOutputDims dataDims indicesDims
      (if axisAttr < 0 then axisAttr + dataDims.length else axisAttr).toNat,
    ?_, ?_, ?_, ?_, ?_⟩
  · rw [gatherInfer, if_neg hne, if_neg hrange]
  · simp [gatherOutputDims]
  · intro i hilt
    have hi : i < indicesDims.length + dataDims.length - 1 := by
      rcases (by omega : axisAttr < 0 ∨ 0 ≤ axisAttr) with hneg | hpos
      · rw [if_pos hneg] at hilt; omega
      · rw [if_neg (by omega)] at hilt; omega
    rw [gatherOutputDims, getD_map_range _ _ _ _ hi, if_pos hilt]
  · intro i hge hlt2
    have hi : i < indicesDims.length + dataDims.length - 1 := by
      rcases (by omega : axisAttr < 0 ∨ 0 ≤ axisAttr) with hneg | hpos
      · rw [if_pos hneg] at hlt2; omega
      · rw [if_neg (by omega)] at hlt2; omega
    rw [gatherOutputDims, getD_map_range _ _ _ _ hi, if_neg (by omega),
      if_pos hlt2]
  · intro i hge hlt2
    rw [gatherOutputDims, getD_map_range _ _ _ _ hlt2, if_neg (by omega),
      if_neg (by omega)]

/-- Witness for `gather_shape_inference`: data shape `(3, 2)`, indices
shape `(5)`, axis `-1` (normalized to 1): output rank `1 + 2 - 1 = 2`. -/
theorem gather_shape_inference_witness :
    1 ≤ ([Dimension.value 3, Dimension.value 2] : List Dimension).length ∧
    -(([Dimension.value 3, Dimension.value 2] : List Dimension).length : Int)
      ≤ -1 ∧
    (-1 : Int) ≤
      (([Dimension.value 3, Dimension.value 2] : List Dimension).length : Int)
        - 1 ∧
    ∃ out, gatherInfer 1 (some [Dimension.value 3, Dimension.value 2])
        (some [Dimension.value 5]) (-1) = Except.ok ⟨1, some out⟩ ∧
      out.length = ([Dimension.value 5] : List Dimension).length +
        ([Dimension.value 3, Dimension.value 2] : List Dimension).length - 1 ∧
      (∀ i, i < ((if (-1 : Int) < 0 then -1 +
            (([Dimension.value 3, Dimension.value 2] :
              List Dimension).length : Int) else -1)).toNat →
        out.getD i Dimension.unknown =
          ([Dimension.value 3, Dimension.value 2] :
            List Dimension).getD i Dimension.unknown) ∧
      (∀ i, ((if (-1 : Int) < 0 then -1 +
            (([Dimension.value 3, Dimension.value 2] :
              List Dimension).length : Int) else -1)).toNat ≤ i →
        i < ((if (-1 : Int) < 0 then -1 +
            (([Dimension.value 3, Dimension.value 2] :
              List Dimension).length : Int) else -1)).toNat +
          ([Dimension.value 5] : List Dimension).length →
        out.getD i Dimension.unknown =
          ([Dimension.value 5] : List Dimension).getD
            (i - ((if (-1 : Int) < 0 then -1 +
              (([Dimension.value 3, Dimension.value 2] :
                List Dimension).length : Int) else -1)).toNat)
            Dimension.unknown) ∧
      (∀ i, ((if (-1 : Int) < 0 then -1 +
            (([Dimension.value 3, Dimension.value 2] :
              List Dimension).length : Int) else -1)).toNat +
          ([Dimension.value 5] : List Dimension).length ≤ i →
        i < ([Dimension.value 5] : List Dimension).length +
          ([Dimension.value 3, Dimension.value 2] :
            List Dimension).length - 1 →
        out.getD i Dimension.unknown =
          ([Dimension.value 3, Dimension.value 2] : List Dimension).getD
            (i + 1 - ([Dimension.value 5] : List Dimension).length)
            Dimension.unknown) :=
  ⟨by decide, by decide, by decide,
   gather_shape_inference 1 [Dimension.value 3, Dimension.value 2]
     [Dimension.value 5] (-1) (by decide) (by decide) (by decide)⟩

/-- C8: evaluation at the failing input.  The operator's own documentation
("If an axis is selected with shape entry not equal to one, an error is
raised") and the claim demand a failure whenever a squeezed axis has known
length ≠ 1.  But the loop consumes `axes` with a single ascending cursor
(`axes[j] == i`), so for the unsorted attribute `axes = [1, 0]` on input
shape `(3, 1)` the listed axis 0 (known length 3) is never matched: the
call silently succeeds with output shape `(3)` — axis 1 squeezed, axis 0
passed through, no error. -/
theorem squeeze_unsorted_axes_silent_noop :
    squeezeInfer 1 (some [Dimension.value 3, Dimension.value 1])
        (some [1, 0]) = Except.ok ⟨1, some [Dimension.value 3]⟩ ∧
    (0 : Int) ∈ ([1, 0] : List Int) ∧
    Dimension.value 3 ≠ Dimension.value 1 := by
  refine ⟨rfl, by decide, by decide⟩

/-! ### Loop lemmas for Reshape -/

theorem reshapeStep_ok_facts (ds : Option (List Dimension)) (t : Int)
    (i : Nat) (negOne : Option Nat) (prod : Int)
    (d : Dimension) (f : Bool) (n1 : Option Nat) (p1 : Int)
    (h : reshapeStep ds t i negOne prod = Except.ok (d, f, n1, p1)) :
    (t = -1 → negOne = none ∧ d = Dimension.unknown ∧ n1 = some i) ∧
    (t ≠ -1 → n1 = negOne) ∧
    (0 < t → d = Dimension.value t) ∧
    (t = 0 → ∀ dims, ds = some dims →
      i < dims.length ∧ d = dims.getD i Dimension.unknown) := by
  by_cases h1 : t = -1
  · subst h1
    cases negOne with
    | some j => unfold reshapeStep at h; simp at h
    | none =>
      unfold reshapeStep at h
      rw [if_pos rfl] at h
      simp only [Except.ok.injEq, Prod.mk.injEq] at h
      refine ⟨fun _ => ⟨rfl, h.1.symm, h.2.2.1.symm⟩, fun hc => absurd rfl hc,
        fun hp => by omega, fun hz => by omega⟩
  · unfold reshapeStep at h
    rw [if_neg h1] at h
    by_cases h2 : t = 0
    · subst h2
      rw [if_pos rfl] at h
      cases ds with
      | none =>
        simp only [Except.ok.injEq, Prod.mk.injEq] at h
        exact ⟨fun hc => absurd hc h1, fun _ => h.2.2.1.symm,
          fun hp => by omega, fun _ dims hdims => by simp at hdims⟩
      | some dims0 =>
        simp only [] at h
        by_cases hb : i < dims0.length
        · rw [if_pos hb] at h
          refine ⟨fun hc => absurd hc h1, ?_, fun hp => by omega, ?_⟩
          · intro _
            cases hd : dims0.getD i Dimension.unknown <;> rw [hd] at h <;>
              simp only [Except.ok.injEq, Prod.mk.injEq] at h <;>
              exact h.2.2.1.symm
          · intro _ dims hdims
            injection hdims with hdims
            subst hdims
            refine ⟨hb, ?_⟩
            cases hd : dims0.getD i Dimension.unknown <;> rw [hd] at h <;>
              simp only [Except.ok.injEq, Prod.mk.injEq] at h <;>
              exact h.1.symm
        · rw [if_neg hb] at h
          simp at h
    · rw [if_neg h2] at h
      by_cases h3 : t > 0
      · rw [if_pos h3] at h
        simp only [Except.ok.injEq, Prod.mk.injEq] at h
        exact ⟨fun hc => absurd hc h1, fun _ => h.2.2.1.symm,
          fun _ => h.1.symm, fun hz => absurd hz h2⟩
      · rw [if_neg h3] at h
        simp at h

theorem reshapeLoop_ok_spec (ds : Option (List Dimension)) (ts : List Int) :
    ∀ (i0 : Nat) (negOne : Option Nat) (prod : Int)
      (out : List Dimension) (uz : List Bool) (n : Option Nat) (p : Int),
    reshapeLoop ds ts i0 negOne prod = Except.ok (out, uz, n, p) →
    out.length = ts.length ∧
    (∀ k, k < ts.length → 0 < ts.getD k 1 →
      out.getD k Dimension.unknown = Dimension.value (ts.getD k 1)) ∧
    (∀ dims, ds = some dims → ∀ k, k < ts.length → ts.getD k 1 = 0 →
      i0 + k < dims.length ∧
      out.getD k Dimension.unknown = dims.getD (i0 + k) Dimension.unknown) := by
  induction ts with
  | nil =>
    intro i0 negOne prod out uz n p h
    rw [reshapeLoop] at h
    injection h with h'
    injection h' with h1 h2
    subst h1
    refine ⟨rfl, ?_, ?_⟩
    · intro k hk
      exact absurd hk (by simp)
    · intro dims _ k hk
      exact absurd hk (by simp)
  | cons t rest ih =>
    intro i0 negOne prod out uz n p h
    rw [reshapeLoop] at h
    cases hstep : reshapeStep ds t i0 negOne prod with
    | error e => rw [hstep] at h; simp at h
    | ok step =>
      obtain ⟨d, f, n1, p1⟩ := step
      rw [hstep] at h
      cases hrec : reshapeLoop ds rest (i0 + 1) n1 p1 with
      | error e => simp [hrec, Except.map] at h
      | ok val =>
        obtain ⟨out', uz', n', p'⟩ := val
        simp only [hrec, Except.map, Except.ok.injEq, Prod.mk.injEq] at h
        obtain ⟨h1, h2, h3, h4⟩ := h
        subst h1
        obtain ⟨ihl, ihp, ihz⟩ := ih (i0 + 1) n1 p1 out' uz' n' p' hrec
        obtain ⟨_, _, hpos, hzero⟩ := reshapeStep_ok_facts ds t i0 negOne prod
          d f n1 p1 hstep
        refine ⟨by simp [ihl], ?_, ?_⟩
        · intro k hk hp
          cases k with
          | zero =>
            rw [List.getD_cons_zero] at hp ⊢
            exact hpos hp
          | succ k' =>
            rw [List.getD_cons_succ] at hp ⊢
            exact ihp k' (by simpa using hk) hp
        · intro dims hdims k hk hz
          cases k with
          | zero =>
            rw [List.getD_cons_zero] at hz
            obtain ⟨hb, hd⟩ := hzero hz dims hdims
            exact ⟨by omega, by rw [List.getD_cons_zero, Nat.add_zero, hd]⟩
          | succ k' =>
            rw [List.getD_cons_succ] at hz ⊢
            obtain ⟨hb, hd⟩ := ihz dims hdims k' (by simpa using hk) hz
            exact ⟨by omega, by rw [hd]; congr 1; omega⟩

theorem reshapeLoop_count (ds : Option (List Dimension)) (ts : List Int) :
    ∀ (i0 : Nat) (negOne : Option Nat) (prod : Int)
      (out : List Dimension) (uz : List Bool) (n : Option Nat) (p : Int),
    reshapeLoop ds ts i0 negOne prod = Except.ok (out, uz, n, p) →
    ts.count (-1) + (match negOne with | some _ => 1 | none => 0) ≤ 1 := by
  induction ts with
  | nil =>
    intro i0 negOne prod out uz n p h
    cases negOne <;> simp
  | cons t rest ih =>
    intro i0 negOne prod out uz n p h
    rw [reshapeLoop] at h
    cases hstep : reshapeStep ds t i0 negOne prod with
    | error e => rw [hstep] at h; simp at h
    | ok step =>
      obtain ⟨d, f, n1, p1⟩ := step
      rw [hstep] at h
      cases hrec : reshapeLoop ds rest (i0 + 1) n1 p1 with
      | error e => simp [hrec, Except.map] at h
      | ok val =>
        obtain ⟨out', uz', n', p'⟩ := val
        obtain ⟨hneg, hnotneg, _, _⟩ := reshapeStep_ok_facts ds t i0 negOne prod
          d f n1 p1 hstep
        have ihc := ih (i0 + 1) n1 p1 out' uz' n' p' hrec
        by_cases ht : t = -1
        · obtain ⟨hn0, _, hn1⟩ := hneg ht
          subst hn0
          rw [hn1] at ihc
          simp only [ht, List.count_cons, beq_self_eq_true, if_true] at ihc ⊢
          omega
        · rw [hnotneg ht] at ihc
          have : (t :: rest).count (-1) = rest.count (-1) := by
            simp [List.count_cons, ht]
          rw [this]
          exact ihc

theorem reshapeLoop_negOne_pos (ds : Option (List Dimension)) (ts : List Int) :
    ∀ (i0 : Nat) (negOne : Option Nat) (prod : Int)
      (out : List Dimension) (uz : List Bool) (n : Option Nat) (p : Int),
    reshapeLoop ds ts i0 negOne prod = Except.ok (out, uz, n, p) →
    ∀ idx, n = some idx →
    negOne = some idx ∨
      (i0 ≤ idx ∧ idx - i0 < ts.length ∧ ts.getD (idx - i0) 1 = -1) := by
  induction ts with
  | nil =>
    intro i0 negOne prod out uz n p h idx hn
    rw [reshapeLoop] at h
    injection h with h'
    injection h' with h1 h2
    injection h2 with h3 h4
    injection h4 with h5 h6
    subst h5
    exact Or.inl hn
  | cons t rest ih =>
    intro i0 negOne prod out uz n p h idx hn
    rw [reshapeLoop] at h
    cases hstep : reshapeStep ds t i0 negOne prod with
    | error e => rw [hstep] at h; simp at h
    | ok step =>
      obtain ⟨d, f, n1, p1⟩ := step
      rw [hstep] at h
      cases hrec : reshapeLoop ds rest (i0 + 1) n1 p1 with
      | error e => simp [hrec, Except.map] at h
      | ok val =>
        obtain ⟨out', uz', n', p'⟩ := val
        simp only [hrec, Except.map, Except.ok.injEq, Prod.mk.injEq] at h
        obtain ⟨_, _, h3, _⟩ := h
        subst h3
        obtain ⟨hneg, hnotneg, _, _⟩ := reshapeStep_ok_facts ds t i0 negOne prod
          d f n1 p1 hstep
        by_cases ht : t = -1
        · obtain ⟨hn0, _, hn1⟩ := hneg ht
          rcases ih (i0 + 1) n1 p1 out' uz' n' p' hrec idx hn with hl | hr
          · rw [hn1] at hl
            injection hl with hl
            subst hl
            refine Or.inr ⟨le_refl _, by simp, ?_⟩
            simp [ht]
          · refine Or.inr ⟨by omega, by simp; omega, ?_⟩
            obtain ⟨ha, hb, hc⟩ := hr
            have hshift : idx - i0 = (idx - (i0 + 1)) + 1 := by omega
            rw [hshift, List.getD_cons_succ]
            exact hc
        · rw [hnotneg ht] at hrec
          rcases ih (i0 + 1) negOne p1 out' uz' n' p' hrec idx hn with hl | hr
          · exact Or.inl hl
          · refine Or.inr ⟨by omega, by simp; omega, ?_⟩
            obtain ⟨ha, hb, hc⟩ := hr
            have hshift : idx - i0 = (idx - (i0 + 1)) + 1 := by omega
            rw [hshift, List.getD_cons_succ]
            exact hc

theorem reshapeLoop_allpos (ds : Option (List Dimension)) (ps : List Int) :
    ∀ (i0 : Nat) (negOne : Option Nat) (prod : Int), (∀ x ∈ ps, 0 < x) →
    reshapeLoop ds ps i0 negOne prod =
      Except.ok (ps.map Dimension.value, List.replicate ps.length false,
        negOne, prod * ps.prod) := by
  induction ps with
  | nil =>
    intro i0 negOne prod _
    rw [reshapeLoop]
    simp
  | cons q rest ih =>
    intro i0 negOne prod hpos
    have hq : 0 < q := hpos q (by simp)
    have hstep : reshapeStep ds q i0 negOne prod =
        Except.ok (Dimension.value q, false, negOne, prod * q) := by
      unfold reshapeStep
      rw [if_neg (by omega), if_neg (by omega), if_pos hq]
    rw [reshapeLoop, hstep]
    simp only [ih (i0 + 1) negOne (prod * q) (fun x hx => hpos x (by simp [hx])),
      Except.map, List.map_cons, List.prod_cons]
    simp [mul_assoc, List.replicate_succ]

theorem set_append_cons {α : Type} (l1 : List α) (d : α) (l2 : List α)
    (v : α) : (l1 ++ d :: l2).set l1.length v = l1 ++ v :: l2 := by
  induction l1 with
  | nil => simp
  | cons x xs ih => simp [ih]

theorem reshapeLoop_allpos_negone (ds : Option (List Dimension))
    (ps1 : List Int) :
    ∀ (ps2 : List Int) (i0 : Nat) (prod : Int),
    (∀ x ∈ ps1, 0 < x) → (∀ x ∈ ps2, 0 < x) →
    reshapeLoop ds (ps1 ++ -1 :: ps2) i0 none prod =
      Except.ok
        (ps1.map Dimension.value ++ Dimension.unknown :: ps2.map
           Dimension.value,
         List.replicate ps1.length false ++ false ::
           List.replicate ps2.length false,
         some (i0 + ps1.length), prod * (ps1.prod * ps2.prod)) := by
  induction ps1 with
  | nil =>
    intro ps2 i0 prod _ hpos2
    have hstep : reshapeStep ds (-1) i0 none prod =
        Except.ok (Dimension.unknown, false, some i0, prod) := by
      unfold reshapeStep
      rw [if_pos rfl]
    rw [List.nil_append, reshapeLoop, hstep]
    simp only [reshapeLoop_allpos ds ps2 (i0 + 1) (some i0) prod hpos2,
      Except.map]
    simp
  | cons q qs ih =>
    intro ps2 i0 prod hpos1 hpos2
    have hq : 0 < q := hpos1 q (by simp)
    have hstep : reshapeStep ds q i0 none prod =
        Except.ok (Dimension.value q, false, none, prod * q) := by
      unfold reshapeStep
      rw [if_neg (by omega), if_neg (by omega), if_pos hq]
    rw [List.cons_append, reshapeLoop, hstep]
    simp only [ih ps2 (i0 + 1) (prod * q)
      (fun x hx => hpos1 x (by simp [hx])) hpos2, Except.map]
    have harith : i0 + 1 + qs.length = i0 + (qs.length + 1) := by omega
    simp [harith, List.prod_cons, mul_assoc, List.replicate_succ]

theorem reshapeInputProduct_values (vs : List Int) :
    ∀ uz, reshapeInputProduct (vs.map Dimension.value) uz = some vs.prod := by
  induction vs with
  | nil => intro uz; simp [reshapeInputProduct]
  | cons v rest ih =>
    intro uz
    rw [List.map_cons, reshapeInputProduct, ih]
    simp [Option.map]

/-- C4: Reshape with a constant target shape: (i) the spec's example,
input shape `(2,3,4)` with target `(-1,4)` yields `(6,4)`; (ii) a target
with two `-1` entries never succeeds; (iii) in every successful inference
the output rank is the target length, a `0` entry is in bounds of a known
input shape and copies the input dimension at its position, and a positive
entry is taken literally; (iv) with a fully known input shape and exactly
one `-1` entry, at any position among positive entries, inference fails
unless the product of the explicit entries evenly divides the input
element count, and otherwise the `-1` entry is set to the quotient. -/
theorem reshape_shape_inference (t : Nat) :
    reshapeInfer 1
        (some [Dimension.value 2, Dimension.value 3, Dimension.value 4])
        (some [-1, 4]) =
      Except.ok ⟨1, some [Dimension.value 6, Dimension.value 4]⟩ ∧
    (∀ (ds : Option (List Dimension)) (ts : List Int) (r : TensorTypeInfo),
      reshapeInfer t ds (some ts) = Except.ok r → ts.count (-1) ≤ 1) ∧
    (∀ (dims : List Dimension) (ts : List Int) (out0 : List Dimension),
      reshapeInfer t (some dims) (some ts) = Except.ok ⟨t, some out0⟩ →
      out0.length = ts.length ∧
      ∀ i, i < ts.length →
        (ts.getD i 1 = 0 → i < dims.length ∧
          out0.getD i Dimension.unknown = dims.getD i Dimension.unknown) ∧
        (0 < ts.getD i 1 →
          out0.getD i Dimension.unknown = Dimension.value (ts.getD i 1))) ∧
    (∀ (vs ps1 ps2 : List Int), (∀ x ∈ ps1, 0 < x) → (∀ x ∈ ps2, 0 < x) →
      reshapeInfer t (some (vs.map Dimension.value))
          (some (ps1 ++ -1 :: ps2)) =
        if vs.prod % (ps1.prod * ps2.prod) = 0 then
          Except.ok ⟨t, some (ps1.map Dimension.value ++
            Dimension.value (vs.prod / (ps1.prod * ps2.prod)) ::
            ps2.map Dimension.value)⟩
        else
          Except.error "Dimension could not be inferred: incompatible shapes") := by
  refine ⟨rfl, ?_, ?_, ?_⟩
  · intro ds ts r h
    unfold reshapeInfer at h
    simp only [] at h
    cases hloop : reshapeLoop ds ts 0 none 1 with
    | error e => rw [hloop] at h; simp at h
    | ok val =>
      obtain ⟨outDims, uz, negOne, outProd⟩ := val
      have := reshapeLoop_count ds ts 0 none 1 outDims uz negOne outProd hloop
      simpa using this
  · intro dims ts out0 h
    unfold reshapeInfer at h
    simp only [] at h
    cases hloop : reshapeLoop (some dims) ts 0 none 1 with
    | error e => rw [hloop] at h; simp at h
    | ok val =>
      obtain ⟨outDims, uz, negOne, outProd⟩ := val
      rw [hloop] at h
      obtain ⟨hlen, hpos, hzero⟩ := reshapeLoop_ok_spec (some dims) ts 0 none 1
        outDims uz negOne outProd hloop
      have main : ∀ hout : out0 = outDims,
          out0.length = ts.length ∧
          ∀ i, i < ts.length →
            (ts.getD i 1 = 0 → i < dims.length ∧
              out0.getD i Dimension.unknown = dims.getD i Dimension.unknown) ∧
            (0 < ts.getD i 1 →
              out0.getD i Dimension.unknown = Dimension.value (ts.getD i 1)) := by
        intro hout
        subst hout
        refine ⟨hlen, ?_⟩
        intro i hi
        refine ⟨?_, fun hp => hpos i hi hp⟩
        intro hz
        have := hzero dims rfl i hi hz
        exact ⟨by omega, by simpa using this.2⟩
      cases negOne with
      | none =>
        simp only [Except.ok.injEq, TensorTypeInfo.mk.injEq, Option.some.injEq]
          at h
        exact main h.2.symm
      | some idx =>
        obtain ⟨hidx, hts⟩ : idx < ts.length ∧ ts.getD idx 1 = -1 := by
          rcases reshapeLoop_negOne_pos (some dims) ts 0 none 1 outDims uz
            (some idx) outProd hloop idx rfl with hl | hr
          · simp at hl
          · exact ⟨by simpa using hr.2.1, by simpa using hr.2.2⟩
        simp only [] at h
        by_cases hprod : outProd = 0
        · rw [if_pos hprod] at h
          simp at h
        · rw [if_neg hprod] at h
          have hset : ∀ hout : out0 = outDims ∨
              (∃ w, out0 = outDims.set idx (Dimension.value w)),
              out0.length = ts.length ∧
              ∀ i, i < ts.length →
                (ts.getD i 1 = 0 → i < dims.length ∧
                  out0.getD i Dimension.unknown = dims.getD i Dimension.unknown) ∧
                (0 < ts.getD i 1 →
                  out0.getD i Dimension.unknown =
                    Dimension.value (ts.getD i 1)) := by
            intro hout
            rcases hout with hout | ⟨w, hout⟩
            · exact main hout
            · subst hout
              refine ⟨by simp [hlen], ?_⟩
              intro i hi
              constructor
              · intro hz
                have hne : idx ≠ i := by
                  intro hc
                  subst hc
                  omega
                have hgd : (outDims.set idx (Dimension.value w)).getD i
                    Dimension.unknown = outDims.getD i Dimension.unknown := by
                  simp [List.getD_eq_getElem?_getD, List.getElem?_set_ne hne]
                rw [hgd]
                have := hzero dims rfl i hi hz
                exact ⟨by omega, by simpa using this.2⟩
              · intro hp
                have hne : idx ≠ i := by
                  intro hc
                  subst hc
                  omega
                have hgd : (outDims.set idx (Dimension.value w)).getD i
                    Dimension.unknown = outDims.getD i Dimension.unknown := by
                  simp [List.getD_eq_getElem?_getD, List.getElem?_set_ne hne]
                rw [hgd]
                exact hpos i hi hp
          cases hip : reshapeInputProduct dims uz with
          | none =>
            rw [hip] at h
            simp only [Except.ok.injEq, TensorTypeInfo.mk.injEq,
              Option.some.injEq] at h
            exact hset (Or.inl h.2.symm)
          | some ip =>
            rw [hip] at h
            simp only [] at h
            by_cases hmod : ip % outProd ≠ 0
            · rw [if_pos hmod] at h
              simp at h
            · rw [if_neg hmod] at h
              simp only [Except.ok.injEq, TensorTypeInfo.mk.injEq,
                Option.some.injEq] at h
              exact hset (Or.inr ⟨ip / outProd, h.2.symm⟩)
  · intro vs ps1 ps2 hpos1 hpos2
    have hq1 : (0 : Int) < ps1.prod := List.prod_pos hpos1
    have hq2 : (0 : Int) < ps2.prod := List.prod_pos hpos2
    have hq : (0 : Int) < ps1.prod * ps2.prod := mul_pos hq1 hq2
    have hloop : reshapeLoop (some (vs.map Dimension.value))
        (ps1 ++ -1 :: ps2) 0 none 1 = Except.ok
          (ps1.map Dimension.value ++
             Dimension.unknown :: ps2.map Dimension.value,
           List.replicate ps1.length false ++
             false :: List.replicate ps2.length false,
           some ps1.length, ps1.prod * ps2.prod) := by
      rw [reshapeLoop_allpos_negone (some (vs.map Dimension.value)) ps1 ps2
        0 1 hpos1 hpos2]
      simp
    have hset := set_append_cons (ps1.map Dimension.value) Dimension.unknown
      (ps2.map Dimension.value)
      (Dimension.value (vs.prod / (ps1.prod * ps2.prod)))
    rw [List.length_map] at hset
    unfold reshapeInfer
    simp only [hloop]
    rw [if_neg (show ¬ ps1.prod * ps2.prod = 0 by omega)]
    rw [reshapeInputProduct_values vs
      (List.replicate ps1.length false ++
        false :: List.replicate ps2.length false)]
    simp only []
    by_cases hmod : vs.prod % (ps1.prod * ps2.prod) = 0
    · rw [if_neg (fun hcon => hcon hmod), if_pos hmod, hset]
    · rw [if_pos hmod, if_neg hmod]

/-! ### Column view of Concat, and loop lemmas -/

/-- Merging one non-concat column across the inputs: what the per-input
merges at a fixed index `j` amount to, starting from the slot's current
dimension. -/
def columnMerge (j : Nat) : List (List Dimension) → Dimension →
    Except String Dimension
  | [], slot => Except.ok slot
  | s :: rest, slot =>
    match mergeDimension (s.getD j Dimension.unknown) slot with
    | Except.error e => Except.error e
    | Except.ok m => columnMerge j rest m

/-- The `all_lengths_known` / `total_length` accumulation along the concat
axis: a known value adds to the total, anything else clears the flag. -/
def axisAccum (a : Nat) (shapes : List (List Dimension)) (acc : Bool × Int) :
    Bool × Int :=
  shapes.foldl (fun kt s =>
    match dimContrib (s.getD a Dimension.unknown) with
    | some v => (kt.1, kt.2 + v)
    | none => (false, kt.2)) acc

theorem concatRow_ok_spec (axis : Nat) (s : List Dimension) :
    ∀ (j0 : Nat) (out out2 : List Dimension) (contrib : Option Int),
    s.length = out.length →
    concatRow axis j0 s out = Except.ok (out2, contrib) →
    out2.length = out.length ∧
    (∀ k, k < out.length →
      (j0 + k = axis →
        out2.getD k Dimension.unknown = out.getD k Dimension.unknown) ∧
      (j0 + k ≠ axis →
        mergeDimension (s.getD k Dimension.unknown)
            (out.getD k Dimension.unknown) =
          Except.ok (out2.getD k Dimension.unknown))) ∧
    (j0 ≤ axis → axis - j0 < s.length →
      contrib = dimContrib (s.getD (axis - j0) Dimension.unknown)) := by
  induction s with
  | nil =>
    intro j0 out out2 contrib hlen h
    cases out with
    | cons d os => simp at hlen
    | nil =>
      have h0 : concatRow axis j0 [] [] = Except.ok ([], none) := rfl
      rw [h0] at h
      injection h with h'
      injection h' with h1 h2
      subst h1
      refine ⟨rfl, ?_, ?_⟩
      · intro k hk
        simp at hk
      · intro _ hcon
        simp at hcon
  | cons din srest ih =>
    intro j0 out out2 contrib hlen h
    cases out with
    | nil => simp at hlen
    | cons dout orest =>
      rw [concatRow] at h
      by_cases hax : j0 = axis
      · rw [if_pos hax] at h
        cases hrec : concatRow axis (j0 + 1) srest orest with
        | error e => rw [hrec] at h; simp [Except.map] at h
        | ok val =>
          obtain ⟨o, c⟩ := val
          simp only [hrec, Except.map, Except.ok.injEq, Prod.mk.injEq] at h
          obtain ⟨h1, h2⟩ := h
          subst h2
          obtain ⟨ihl, ihk, ihc⟩ := ih (j0 + 1) orest o c (by simpa using hlen)
            hrec
          refine ⟨?_, ?_, ?_⟩
          · rw [← h1]; simp [ihl]
          · intro k hk
            cases k with
            | zero =>
              refine ⟨fun _ => by rw [← h1]; simp,
                fun hne => absurd (by omega) hne⟩
            | succ k' =>
              rw [← h1]
              simp only [List.getD_cons_succ]
              have := ihk k' (by simpa using hk)
              exact ⟨fun he => this.1 (by omega), fun hne => this.2 (by omega)⟩
          · intro hle hlt
            have h0 : axis - j0 = 0 := by omega
            rw [h0, List.getD_cons_zero]
      · rw [if_neg hax] at h
        cases hm : mergeDimension din dout with
        | error e => rw [hm] at h; simp at h
        | ok m =>
          rw [hm] at h
          cases hrec : concatRow axis (j0 + 1) srest orest with
          | error e => simp [hrec, Except.map] at h
          | ok val =>
            obtain ⟨o, c⟩ := val
            simp only [hrec, Except.map, Except.ok.injEq, Prod.mk.injEq] at h
            obtain ⟨h1, h2⟩ := h
            subst h2
            obtain ⟨ihl, ihk, ihc⟩ := ih (j0 + 1) orest o c
              (by simpa using hlen) hrec
            refine ⟨?_, ?_, ?_⟩
            · rw [← h1]; simp [ihl]
            · intro k hk
              cases k with
              | zero =>
                refine ⟨fun he => absurd (by omega) hax, fun _ => ?_⟩
                rw [← h1]
                simp only [List.getD_cons_zero]
                exact hm
              | succ k' =>
                rw [← h1]
                simp only [List.getD_cons_succ]
                have := ihk k' (by simpa using hk)
                exact ⟨fun he => this.1 (by omega), fun hne => this.2 (by omega)⟩
            · intro hle hlt
              have hj : j0 < axis := by omega
              have h0 : axis - j0 = (axis - (j0 + 1)) + 1 := by omega
              rw [h0, List.getD_cons_succ]
              exact ihc (by omega)
                (by simp only [List.length_cons] at hlt; omega)

theorem concatFold_mismatch (a rank : Nat) (shapes : List (List Dimension)) :
    ∀ (out : List Dimension) (known : Bool) (total : Int),
    (∃ s ∈ shapes, s.length ≠ rank) →
    ∃ e, concatFold a rank shapes out known total = Except.error e := by
  induction shapes with
  | nil =>
    intro out known total hex
    rcases hex with ⟨s, hs, _⟩
    simp at hs
  | cons s rest ih =>
    intro out known total hex
    by_cases hs : s.length = rank
    · rcases hex with ⟨s', hs', hne⟩
      rcases List.mem_cons.mp hs' with hh | hmem
      · exact absurd (hh ▸ hs) hne
      · cases hrow : concatRow a 0 s out with
        | error e =>
          refine ⟨e, ?_⟩
          rw [concatFold, if_neg (not_not_intro hs), hrow]
        | ok val =>
          obtain ⟨out2, contrib⟩ := val
          cases contrib with
          | some v =>
            obtain ⟨e, he⟩ := ih out2 known (total + v) ⟨s', hmem, hne⟩
            refine ⟨e, ?_⟩
            rw [concatFold, if_neg (not_not_intro hs), hrow]
            exact he
          | none =>
            obtain ⟨e, he⟩ := ih out2 false total ⟨s', hmem, hne⟩
            refine ⟨e, ?_⟩
            rw [concatFold, if_neg (not_not_intro hs), hrow]
            exact he
    · refine ⟨"All inputs to Concat must have same rank", ?_⟩
      rw [concatFold, if_pos hs]

theorem concatFold_ok_spec (a rank : Nat) (shapes : List (List Dimension)) :
    ∀ (out : List Dimension) (known : Bool) (total : Int)
      (out' : List Dimension) (known' : Bool) (total' : Int),
    concatFold a rank shapes out known total =
      Except.ok (out', known', total') →
    out.length = rank → a < rank →
    (∀ s ∈ shapes, s.length = rank) ∧
    out'.length = rank ∧
    (∀ j, j < rank → j ≠ a →
      columnMerge j shapes (out.getD j Dimension.unknown) =
        Except.ok (out'.getD j Dimension.unknown)) ∧
    out'.getD a Dimension.unknown = out.getD a Dimension.unknown ∧
    (known', total') = axisAccum a shapes (known, total) := by
  induction shapes with
  | nil =>
    intro out known total out' known' total' h hout ha
    rw [concatFold] at h
    injection h with h'
    injection h' with h1 h2
    injection h2 with h3 h4
    subst h1
    subst h3
    subst h4
    refine ⟨by simp, hout, ?_, rfl, rfl⟩
    intro j _ _
    rw [columnMerge]
  | cons s rest ih =>
    intro out known total out' known' total' h hout ha
    rw [concatFold] at h
    by_cases hs : s.length = rank
    · rw [if_neg (not_not_intro hs)] at h
      cases hrow : concatRow a 0 s out with
      | error e => rw [hrow] at h; simp at h
      | ok val =>
        obtain ⟨out2, contrib⟩ := val
        rw [hrow] at h
        simp only [] at h
        obtain ⟨hrl, hrk, hrc⟩ := concatRow_ok_spec a s 0 out out2 contrib
          (by omega) hrow
        have hcon : contrib = dimContrib (s.getD a Dimension.unknown) :=
          hrc (by omega) (by omega)
        have hout2 : out2.length = rank := by omega
        cases contrib with
        | some v =>
          obtain ⟨ihm, ihl, ihcol, ihax, ihacc⟩ := ih out2 known (total + v)
            out' known' total' h hout2 ha
          refine ⟨?_, ihl, ?_, ?_, ?_⟩
          · intro s' hs'
            rcases List.mem_cons.mp hs' with hh | hmem
            · exact hh ▸ hs
            · exact ihm s' hmem
          · intro j hj hja
            have hmerge := (hrk j (by omega)).2 (by omega)
            rw [columnMerge, hmerge]
            exact ihcol j hj hja
          · rw [ihax, (hrk a (by omega)).1 (by omega)]
          · rw [ihacc, axisAccum, axisAccum, List.foldl_cons, ← hcon]
        | none =>
          obtain ⟨ihm, ihl, ihcol, ihax, ihacc⟩ := ih out2 false total
            out' known' total' h hout2 ha
          refine ⟨?_, ihl, ?_, ?_, ?_⟩
          · intro s' hs'
            rcases List.mem_cons.mp hs' with hh | hmem
            · exact hh ▸ hs
            · exact ihm s' hmem
          · intro j hj hja
            have hmerge := (hrk j (by omega)).2 (by omega)
            rw [columnMerge, hmerge]
            exact ihcol j hj hja
          · rw [ihax, (hrk a (by omega)).1 (by omega)]
          · rw [ihacc, axisAccum, axisAccum, List.foldl_cons, ← hcon]
    · rw [if_pos hs] at h
      simp at h

theorem concatInfer_map_some (t : Nat) (s0 : List Dimension)
    (rest : List (List Dimension)) (axis : Int) :
    concatInfer t ((s0 :: rest).map some) (some axis) =
      (if (s0.length : Int) ≤ axis then
        Except.error "rank must be greater than axis"
       else if axis < 0 then Except.ok ⟨t, none⟩
       else
        match concatFold axis.toNat s0.length (s0 :: rest)
            (List.replicate s0.length Dimension.unknown) true 0 with
        | Except.error e => Except.error e
        | Except.ok (out, known, total) =>
          Except.ok ⟨t, some (if known then
            out.set axis.toNat (Dimension.value total) else out)⟩) := by
  unfold concatInfer
  simp only [List.map_cons]
  have hany : ((some s0 :: rest.map some).any fun x => x.isNone) = false := by
    simp [List.any_eq_false]
  simp only [hany, Bool.false_eq_true, if_false, Option.getD_some,
    List.map_map]
  rw [show ((fun (x : Option (List Dimension)) => x.getD []) ∘ some) = id from
    funext fun x => rfl, List.map_id]

/-- C6: Concat when every input has a shape: a rank mismatch between any
input and input 0 makes inference fail; in every successful inference all
inputs share input 0's rank, every non-concat axis is the (successful)
§4.1 merge of that column over all inputs, and the concat axis carries the
sum of the per-input lengths when all are known and is left unset when any
is unknown; a negative axis attribute silently skips shape propagation
instead of failing. -/
theorem concat_shape_inference (t : Nat) (s0 : List Dimension)
    (rest : List (List Dimension)) (axis : Int) :
    (axis < 0 →
      concatInfer t ((s0 :: rest).map some) (some axis) =
        Except.ok ⟨t, none⟩) ∧
    (0 ≤ axis → axis < (s0.length : Int) →
      (∃ s ∈ s0 :: rest, s.length ≠ s0.length) →
      ∃ e, concatInfer t ((s0 :: rest).map some) (some axis) =
        Except.error e) ∧
    (∀ out, 0 ≤ axis → axis < (s0.length : Int) →
      concatInfer t ((s0 :: rest).map some) (some axis) =
        Except.ok ⟨t, some out⟩ →
      (∀ s ∈ s0 :: rest, s.length = s0.length) ∧
      out.length = s0.length ∧
      (∀ j, j < s0.length → j ≠ axis.toNat →
        columnMerge j (s0 :: rest) Dimension.unknown =
          Except.ok (out.getD j Dimension.unknown)) ∧
      (out.getD axis.toNat Dimension.unknown =
        match axisAccum axis.toNat (s0 :: rest) (true, 0) with
        | (true, tot) => Dimension.value tot
        | (false, _) => Dimension.unknown)) := by
  refine ⟨?_, ?_, ?_⟩
  · intro hneg
    rw [concatInfer_map_some, if_neg (by omega), if_pos hneg]
  · intro h0 hlt hex
    obtain ⟨e, he⟩ := concatFold_mismatch axis.toNat s0.length (s0 :: rest)
      (List.replicate s0.length Dimension.unknown) true 0 hex
    refine ⟨e, ?_⟩
    rw [concatInfer_map_some, if_neg (by omega), if_neg (by omega), he]
  · intro out h0 hlt hok
    rw [concatInfer_map_some, if_neg (by omega), if_neg (by omega)] at hok
    cases hfold : concatFold axis.toNat s0.length (s0 :: rest)
        (List.replicate s0.length Dimension.unknown) true 0 with
    | error e => rw [hfold] at hok; simp at hok
    | ok val =>
      obtain ⟨o, known, total⟩ := val
      rw [hfold] at hok
      simp only [Except.ok.injEq, TensorTypeInfo.mk.injEq,
        Option.some.injEq] at hok
      have hout := hok.2
      have haxN : axis.toNat < s0.length := by omega
      obtain ⟨hm, hl, hcol, hax, hacc⟩ := concatFold_ok_spec axis.toNat
        s0.length (s0 :: rest) (List.replicate s0.length Dimension.unknown)
        true 0 o known total hfold (by simp) haxN
      have hrepl : ∀ j, j < s0.length →
          (List.replicate s0.length Dimension.unknown).getD j
            Dimension.unknown = Dimension.unknown := by
        intro j hj
        simp [List.getD_eq_getElem?_getD, List.getElem?_replicate, hj]
      refine ⟨hm, ?_, ?_, ?_⟩
      · rw [← hout]
        cases known <;> simp [hl]
      · intro j hj hja
        have hpres : out.getD j Dimension.unknown =
            o.getD j Dimension.unknown := by
          rw [← hout]
          cases known with
          | false => simp
          | true =>
            simp [List.getD_eq_getElem?_getD,
              List.getElem?_set_ne (fun hc => hja hc.symm)]
        have hc := hcol j hj hja
        rw [hrepl j hj] at hc
        rw [hpres]
        exact hc
      · rw [← hacc]
        cases known with
        | false =>
          rw [← hout]
          simp only [Bool.false_eq_true, if_false]
          rw [hax, hrepl axis.toNat haxN]
        | true =>
          rw [← hout]
          simp only [if_true]
          simp [List.getD_eq_getElem?_getD,
            List.getElem?_set_eq_of_lt _ (by omega : axis.toNat < o.length)]

theorem sliceAxesLoop_cons (dims : List Dimension) (a s e st : Int)
    (arest srest erest strest seen : List Int) (out : List Dimension) :
    sliceAxesLoop dims (a :: arest) (s :: srest) (e :: erest) (st :: strest)
        seen out =
      match sliceStep dims a s e st seen out with
      | Except.error err => Except.error err
      | Except.ok (seen2, out2) =>
        sliceAxesLoop dims arest srest erest strest seen2 out2 := rfl

theorem sliceAxesLoop_nil (dims : List Dimension) (seen : List Int)
    (out : List Dimension) :
    sliceAxesLoop dims [] [] [] [] seen out = Except.ok out := rfl

theorem sliceStep_ok_facts (dims : List Dimension) (a s e st : Int)
    (seen : List Int) (out : List Dimension) (seen2 : List Int)
    (out2 : List Dimension)
    (h : sliceStep dims a s e st seen out = Except.ok (seen2, out2)) :
    0 ≤ normAxis dims.length a ∧
    normAxis dims.length a < (dims.length : Int) ∧
    normAxis dims.length a ∉ seen ∧
    seen2 = normAxis dims.length a :: seen ∧
    ((∃ len, dims.getD (normAxis dims.length a).toNat Dimension.unknown =
        Dimension.value len ∧ st ≠ 0 ∧
        out2 = out.set (normAxis dims.length a).toNat
          (Dimension.value (sliceOutLen s e st len))) ∨
     ((∀ len, dims.getD (normAxis dims.length a).toNat Dimension.unknown ≠
        Dimension.value len) ∧ out2 = out)) := by
  unfold sliceStep at h
  simp only [] at h
  by_cases hr : normAxis dims.length a ≥ (dims.length : Int) ∨
      normAxis dims.length a < 0
  · rw [if_pos hr] at h
    simp at h
  · rw [if_neg hr] at h
    by_cases hm : normAxis dims.length a ∈ seen
    · rw [if_pos hm] at h
      simp at h
    · rw [if_neg hm] at h
      refine ⟨by omega, by omega, hm, ?_, ?_⟩
      · cases hd : dims.getD (normAxis dims.length a).toNat Dimension.unknown
          with
        | value len =>
          rw [hd] at h
          simp only [] at h
          by_cases hst : st = 0
          · rw [if_pos hst] at h; simp at h
          · rw [if_neg hst] at h
            simp only [Except.ok.injEq, Prod.mk.injEq] at h
            exact h.1.symm
        | param str =>
          rw [hd] at h
          simp only [Except.ok.injEq, Prod.mk.injEq] at h
          exact h.1.symm
        | unknown =>
          rw [hd] at h
          simp only [Except.ok.injEq, Prod.mk.injEq] at h
          exact h.1.symm
      · cases hd : dims.getD (normAxis dims.length a).toNat Dimension.unknown
          with
        | value len =>
          rw [hd] at h
          simp only [] at h
          by_cases hst : st = 0
          · rw [if_pos hst] at h; simp at h
          · rw [if_neg hst] at h
            simp only [Except.ok.injEq, Prod.mk.injEq] at h
            exact Or.inl ⟨len, rfl, hst, h.2.symm⟩
        | param str =>
          rw [hd] at h
          simp only [Except.ok.injEq, Prod.mk.injEq] at h
          refine Or.inr ⟨?_, h.2.symm⟩
          intro len hc
          exact absurd hc (by simp)
        | unknown =>
          rw [hd] at h
          simp only [Except.ok.injEq, Prod.mk.injEq] at h
          refine Or.inr ⟨?_, h.2.symm⟩
          intro len hc
          exact absurd hc (by simp)

theorem sliceAxesLoop_ok_avoid (dims : List Dimension) (axes : List Int) :
    ∀ (starts ends steps seen : List Int) (out out' : List Dimension),
    axes.length = starts.length → starts.length = ends.length →
    ends.length = steps.length →
    sliceAxesLoop dims axes starts ends steps seen out = Except.ok out' →
    ∀ k, k < axes.length →
      normAxis dims.length (axes.getD k 0) ∉ seen := by
  induction axes with
  | nil =>
    intro starts ends steps seen out out' _ _ _ _ k hk
    simp at hk
  | cons a arest ih =>
    intro starts ends steps seen out out' h1 h2 h3 h k hk
    cases starts with
    | nil => simp at h1
    | cons s srest =>
      cases ends with
      | nil => simp at h2
      | cons e erest =>
        cases steps with
        | nil => simp at h3
        | cons st strest =>
          rw [sliceAxesLoop_cons] at h
          cases hstep : sliceStep dims a s e st seen out with
          | error err => rw [hstep] at h; simp at h
          | ok val =>
            obtain ⟨seen2, out2⟩ := val
            rw [hstep] at h
            simp only [] at h
            obtain ⟨_, _, hnotin, hseen2, _⟩ :=
              sliceStep_ok_facts dims a s e st seen out seen2 out2 hstep
            cases k with
            | zero => simpa using hnotin
            | succ k' =>
              rw [List.getD_cons_succ]
              intro hc
              have hmem := ih srest erest strest seen2 out2 out'
                (by simpa using h1) (by simpa using h2) (by simpa using h3)
                h k' (by simpa using hk)
              rw [hseen2] at hmem
              exact hmem (List.mem_cons_of_mem _ hc)

theorem sliceAxesLoop_ok_facts (dims : List Dimension) (axes : List Int) :
    ∀ (starts ends steps seen : List Int) (out out' : List Dimension),
    axes.length = starts.length → starts.length = ends.length →
    ends.length = steps.length → out.length = dims.length →
    sliceAxesLoop dims axes starts ends steps seen out = Except.ok out' →
    out'.length = out.length ∧
    (∀ (j : Nat) (d : Dimension), j < out.length →
      (∀ k, k < axes.length →
        (normAxis dims.length (axes.getD k 0)).toNat ≠ j) →
      out'.getD j d = out.getD j d) ∧
    (∀ k, k < axes.length →
      0 ≤ normAxis dims.length (axes.getD k 0) ∧
      normAxis dims.length (axes.getD k 0) < (dims.length : Int) ∧
      (∀ len, dims.getD (normAxis dims.length (axes.getD k 0)).toNat
          Dimension.unknown = Dimension.value len →
        steps.getD k 0 ≠ 0 ∧
        out'.getD (normAxis dims.length (axes.getD k 0)).toNat
            Dimension.unknown =
          Dimension.value (sliceOutLen (starts.getD k 0) (ends.getD k 0)
            (steps.getD k 0) len)) ∧
      ((∀ len, dims.getD (normAxis dims.length (axes.getD k 0)).toNat
          Dimension.unknown ≠ Dimension.value len) →
        out'.getD (normAxis dims.length (axes.getD k 0)).toNat
            Dimension.unknown =
          out.getD (normAxis dims.length (axes.getD k 0)).toNat
            Dimension.unknown)) := by
  induction axes with
  | nil =>
    intro starts ends steps seen out out' h1 h2 h3 hlen h
    have hs : starts = [] := by
      cases starts with
      | nil => rfl
      | cons x xs => simp at h1
    subst hs
    have he : ends = [] := by
      cases ends with
      | nil => rfl
      | cons x xs => simp at h2
    subst he
    have hst : steps = [] := by
      cases steps with
      | nil => rfl
      | cons x xs => simp at h3
    subst hst
    rw [sliceAxesLoop_nil] at h
    injection h with h'
    subst h'
    refine ⟨rfl, fun j d _ _ => rfl, ?_⟩
    intro k hk
    simp at hk
  | cons a arest ih =>
    intro starts ends steps seen out out' h1 h2 h3 hlen h
    cases starts with
    | nil => simp at h1
    | cons s srest =>
      cases ends with
      | nil => simp at h2
      | cons e erest =>
        cases steps with
        | nil => simp at h3
        | cons st strest =>
          rw [sliceAxesLoop_cons] at h
          cases hstep : sliceStep dims a s e st seen out with
          | error err => rw [hstep] at h; simp at h
          | ok val =>
            obtain ⟨seen2, out2⟩ := val
            rw [hstep] at h
            simp only [] at h
            obtain ⟨h0a, hlta, hnotin, hseen2, hdisj⟩ :=
              sliceStep_ok_facts dims a s e st seen out seen2 out2 hstep
            have hout2 : out2.length = out.length := by
              rcases hdisj with ⟨len, _, _, hset⟩ | ⟨_, heq⟩
              · rw [hset]; simp
              · rw [heq]
            obtain ⟨ihl, ihe, ihk⟩ := ih srest erest strest seen2 out2 out'
              (by simpa using h1) (by simpa using h2) (by simpa using h3)
              (by omega) h
            have havoid := sliceAxesLoop_ok_avoid dims arest srest erest
              strest seen2 out2 out' (by simpa using h1) (by simpa using h2)
              (by simpa using h3) h
            have havoid' : ∀ k, k < arest.length →
                normAxis dims.length (arest.getD k 0) ≠
                  normAxis dims.length a := by
              intro k hk hc
              have := havoid k hk
              rw [hseen2, hc] at this
              exact this (List.mem_cons_self _ _)
            refine ⟨by omega, ?_, ?_⟩
            · intro j d hj hall
              have hja : (normAxis dims.length a).toNat ≠ j := by
                have := hall 0 (by simp)
                simpa using this
              have h2j : out'.getD j d = out2.getD j d := by
                refine ihe j d (by omega) ?_
                intro k hk
                have := hall (k + 1) (by simpa using hk)
                simpa using this
              rw [h2j]
              rcases hdisj with ⟨len, _, _, hset⟩ | ⟨_, heq⟩
              · rw [hset]
                simp [List.getD_eq_getElem?_getD, List.getElem?_set_ne hja]
              · rw [heq]
            · intro k hk
              cases k with
              | zero =>
                simp only [List.getD_cons_zero]
                refine ⟨h0a, hlta, ?_, ?_⟩
                · intro len hval
                  rcases hdisj with ⟨len', hd', hst', hset⟩ | ⟨hnv, _⟩
                  · rw [hval] at hd'
                    injection hd' with hlen'
                    subst hlen'
                    refine ⟨hst', ?_⟩
                    have h2j : out'.getD (normAxis dims.length a).toNat
                        Dimension.unknown =
                        out2.getD (normAxis dims.length a).toNat
                          Dimension.unknown := by
                      refine ihe _ _ (by omega) ?_
                      intro k' hk'
                      have hne := havoid' k' hk'
                      have h0k := (ihk k' hk').1
                      omega
                    rw [h2j, hset]
                    simp [List.getD_eq_getElem?_getD,
                      List.getElem?_set_eq_of_lt _
                        (by omega : (normAxis dims.length a).toNat <
                          out.length)]
                  · exact absurd hval (hnv len)
                · intro hnv
                  have h2j : out'.getD (normAxis dims.length a).toNat
                      Dimension.unknown =
                      out2.getD (normAxis dims.length a).toNat
                        Dimension.unknown := by
                    refine ihe _ _ (by omega) ?_
                    intro k' hk'
                    have hne := havoid' k' hk'
                    have h0k := (ihk k' hk').1
                    omega
                  rw [h2j]
                  rcases hdisj with ⟨len', hd', _, _⟩ | ⟨_, heq⟩
                  · exact absurd hd' (hnv len')
                  · rw [heq]
              | succ k' =>
                simp only [List.getD_cons_succ]
                obtain ⟨ih0, ih1, ih2, ih3⟩ := ihk k' (by simpa using hk)
                refine ⟨ih0, ih1, ih2, ?_⟩
                intro hnv
                rw [ih3 hnv]
                rcases hdisj with ⟨len, _, _, hset⟩ | ⟨_, heq⟩
                · rw [hset]
                  have hne := havoid' k' (by simpa using hk)
                  have h0k' := (ihk k' (by simpa using hk)).1
                  rw [getD_set_ne
                    (show (normAxis dims.length a).toNat ≠
                      (normAxis dims.length (arest.getD k' 0)).toNat
                     by omega)]
                · rw [heq]

/-- C5: Slice with constant starts/ends (and axes/steps): (i) the spec's
example, data `(4,4)`, starts `[1,0]`, ends `[2,3]`, axes `[0,1]`, steps
`[1,2]` yields `(1,2)`; (ii) absent axes and steps inputs behave exactly
as the defaults `0..n-1` and all ones; (iii) every successful inference
sets the output rank to the input rank and, for every processed axis
(normalized by adding the rank when negative, validated in range), sets
the output length at that axis to `max(0, ceil((end - start) / step))`
after negative-index normalization and clamping when the input length is
known (with a nonzero step), leaves it as the copied input dimension when
the input length is unknown, and copies all untouched dimensions
verbatim; (iv) step 0 on an axis of known length fails; (v) an
out-of-range axis fails; (vi) a duplicate axis fails. -/
theorem slice_shape_inference (t : Nat) :
    sliceInfer 1 5 (some [Dimension.value 4, Dimension.value 4])
        (some [1, 0]) (some [2, 3]) (some (some [0, 1]))
        (some (some [1, 2])) =
      Except.ok ⟨1, some [Dimension.value 1, Dimension.value 2]⟩ ∧
    (∀ (dims : List Dimension) (starts ends : List Int),
      sliceInfer t 5 (some dims) (some starts) (some ends) none none =
        sliceInfer t 5 (some dims) (some starts) (some ends)
          (some (some ((List.range starts.length).map Int.ofNat)))
          (some (some (List.replicate starts.length 1)))) ∧
    (∀ (dims : List Dimension) (axes starts ends steps : List Int)
        (out : List Dimension),
      sliceInfer t 5 (some dims) (some starts) (some ends)
          (some (some axes)) (some (some steps)) =
        Except.ok ⟨t, some out⟩ →
      out.length = dims.length ∧
      (∀ (j : Nat) (d : Dimension), j < dims.length →
        (∀ k, k < axes.length →
          (normAxis dims.length (axes.getD k 0)).toNat ≠ j) →
        out.getD j d = dims.getD j d) ∧
      (∀ k, k < axes.length →
        0 ≤ normAxis dims.length (axes.getD k 0) ∧
        normAxis dims.length (axes.getD k 0) < (dims.length : Int) ∧
        (∀ len, dims.getD (normAxis dims.length (axes.getD k 0)).toNat
            Dimension.unknown = Dimension.value len →
          steps.getD k 0 ≠ 0 ∧
          out.getD (normAxis dims.length (axes.getD k 0)).toNat
              Dimension.unknown =
            Dimension.value (sliceOutLen (starts.getD k 0) (ends.getD k 0)
              (steps.getD k 0) len)) ∧
        ((∀ len, dims.getD (normAxis dims.length (axes.getD k 0)).toNat
            Dimension.unknown ≠ Dimension.value len) →
          out.getD (normAxis dims.length (axes.getD k 0)).toNat
              Dimension.unknown =
            dims.getD (normAxis dims.length (axes.getD k 0)).toNat
              Dimension.unknown))) ∧
    (∀ (dims : List Dimension) (a s e len : Int),
      0 ≤ normAxis dims.length a →
      normAxis dims.length a < (dims.length : Int) →
      dims.getD (normAxis dims.length a).toNat Dimension.unknown =
        Dimension.value len →
      sliceInfer t 5 (some dims) (some [s]) (some [e]) (some (some [a]))
          (some (some [0])) =
        Except.error "'step' cannot be 0") ∧
    (∀ (dims : List Dimension) (a s e st : Int),
      (normAxis dims.length a < 0 ∨
        (dims.length : Int) ≤ normAxis dims.length a) →
      sliceInfer t 5 (some dims) (some [s]) (some [e]) (some (some [a]))
          (some (some [st])) =
        Except.error "Input axes has invalid data") ∧
    (∀ (dims : List Dimension) (a s1 e1 s2 e2 : Int),
      0 ≤ normAxis dims.length a →
      normAxis dims.length a < (dims.length : Int) →
      sliceInfer t 5 (some dims) (some [s1, s2]) (some [e1, e2])
          (some (some [a, a])) (some (some [1, 1])) =
        Except.error "'axes' has duplicates") := by
  refine ⟨rfl, ?_, ?_, ?_, ?_, ?_⟩
  · intro dims starts ends
    unfold sliceInfer
    simp
  · intro dims axes starts ends steps out hok
    unfold sliceInfer at hok
    rw [if_neg (by decide)] at hok
    simp only [Option.join, Option.some_bind, id] at hok
    rw [if_neg (by simp)] at hok
    by_cases h1 : starts.length = ends.length
    · rw [if_neg (not_not_intro h1)] at hok
      by_cases h2 : axes.length = starts.length
      · rw [if_neg (not_not_intro h2)] at hok
        unfold sliceBody at hok
        simp only [Option.getD_some] at hok
        by_cases h3 : steps.length = axes.length
        · rw [if_neg (not_not_intro h3)] at hok
          cases hloop : sliceAxesLoop dims axes starts ends steps [] dims
            with
          | error e => rw [hloop] at hok; simp at hok
          | ok out2 =>
            rw [hloop] at hok
            simp only [Except.ok.injEq, TensorTypeInfo.mk.injEq] at hok
            by_cases hrank : dims.length = 0
            · rw [if_pos hrank] at hok
              simp at hok
            · rw [if_neg hrank] at hok
              simp only [Option.some.injEq] at hok
              obtain ⟨hl, he, hk⟩ := sliceAxesLoop_ok_facts dims axes starts
                ends steps [] dims out2 h2 h1 (by omega) rfl hloop
              rw [← hok.2]
              exact ⟨hl, he, hk⟩
        · rw [if_pos h3] at hok
          simp at hok
      · rw [if_pos h2] at hok
        simp at hok
    · rw [if_pos h1] at hok
      simp at hok
  · intro dims a s e len h0 hlt hval
    have hstep : sliceStep dims a s e 0 [] dims =
        Except.error "'step' cannot be 0" := by
      unfold sliceStep
      simp only []
      rw [if_neg (by push_neg; omega), if_neg (by simp), hval]
      simp
    unfold sliceInfer
    rw [if_neg (by decide)]
    simp only [Option.join]
    rw [if_neg (by simp), if_neg (by simp)]
    simp only [Option.some_bind, id]
    rw [if_neg (by simp)]
    unfold sliceBody
    rw [if_neg (by simp)]
    simp only [Option.getD_some]
    rw [sliceAxesLoop_cons, hstep]
  · intro dims a s e st hrange
    have hstep : sliceStep dims a s e st [] dims =
        Except.error "Input axes has invalid data" := by
      unfold sliceStep
      simp only []
      rw [if_pos (by omega)]
    unfold sliceInfer
    rw [if_neg (by decide)]
    simp only [Option.join]
    rw [if_neg (by simp), if_neg (by simp)]
    simp only [Option.some_bind, id]
    rw [if_neg (by simp)]
    unfold sliceBody
    rw [if_neg (by simp)]
    simp only [Option.getD_some]
    rw [sliceAxesLoop_cons, hstep]
  · intro dims a s1 e1 s2 e2 h0 hlt
    have hstep2 : ∀ out, sliceStep dims a s2 e2 1 [normAxis dims.length a]
        out = Except.error "'axes' has duplicates" := by
      intro out
      unfold sliceStep
      simp only []
      rw [if_neg (by push_neg; omega), if_pos (by simp)]
    unfold sliceInfer
    rw [if_neg (by decide)]
    simp only [Option.join]
    rw [if_neg (by simp), if_neg (by simp)]
    simp only [Option.some_bind, id]
    rw [if_neg (by simp)]
    unfold sliceBody
    rw [if_neg (by simp)]
    simp only [Option.getD_some]
    rw [sliceAxesLoop_cons]
    cases hd : dims.getD (normAxis dims.length a).toNat Dimension.unknown with
    | value len =>
      have hstep1 : sliceStep dims a s1 e1 1 [] dims =
          Except.ok ([normAxis dims.length a],
            dims.set (normAxis dims.length a).toNat
              (Dimension.value (sliceOutLen s1 e1 1 len))) := by
        unfold sliceStep
        simp only []
        rw [if_neg (by push_neg; omega), if_neg (by simp), hd]
        simp
      rw [hstep1]
      simp only []
      rw [sliceAxesLoop_cons, hstep2]
    | param str =>
      have hstep1 : sliceStep dims a s1 e1 1 [] dims =
          Except.ok ([normAxis dims.length a], dims) := by
        unfold sliceStep
        simp only []
        rw [if_neg (by push_neg; omega), if_neg (by simp), hd]
      rw [hstep1]
      simp only []
      rw [sliceAxesLoop_cons, hstep2]
    | unknown =>
      have hstep1 : sliceStep dims a s1 e1 1 [] dims =
          Except.ok ([normAxis dims.length a], dims) := by
        unfold sliceStep
        simp only []
        rw [if_neg (by push_neg; omega), if_neg (by simp), hd]
      rw [hstep1]
      simp only []
      rw [sliceAxesLoop_cons, hstep2]
